import Mathlib

/-!
Verification development for the ppo-pytorch repository.

Shallow embedding of the core data structures and numeric kernels of
`ppo_pytorch/ppo/ppo.py` and `ppo_pytorch/ppo/mppo.py`:

* `ReplayBuffer` (mppo.py lines 96-161): fixed-capacity circular store.
  The numpy arrays are modelled as total functions `Nat → Option α`;
  `none` marks a slot that has not been written yet (numpy's zero
  initialisation), `some x` a slot holding a pushed item.  One item of
  type `α` stands for one time-row of the array (all actors of one
  time index); for sampling, rows are instantiated with `List β` so the
  per-actor indexing of `sample` is visible.
* GAE return/advantage recursions (spec section 4.2; the file
  `ppo_pytorch/common/gae.py` that implements them is not part of the
  sources, so they are modelled from the spec).
* The per-element arithmetic of `PPO._get_ppo_loss` (ppo.py lines
  348-414) over `ℚ` (torch float tensors modelled by exact rationals,
  elementwise).
* The rollout `Sample` buffer of `PPO.append_to_sample` /
  `PPO.create_new_sample` (ppo.py lines 230-243).
* The discriminator-fake-step unroll of `MPPO._train_world`
  (mppo.py lines 254-274), with a ghost log of the arguments passed to
  the generator.
-/

/-! ## ReplayBuffer (mppo.py lines 96-161) -/

/-- Replay buffer state: `capacity`, the backing storage (`none` =
never written, numpy zero-init), the write pointer `index` and the
wraparound flag `full_loop` (mppo.py lines 97-104). -/
structure ReplayBuffer (α : Type) where
  capacity : Nat
  data : Nat → Option α
  index : Nat
  full_loop : Bool

/-- `ReplayBuffer.__init__`: empty storage, `index = 0`,
`full_loop = False` (mppo.py lines 97-104). -/
def ReplayBuffer.init (α : Type) (capacity : Nat) : ReplayBuffer α :=
  { capacity := capacity, data := fun _ => none, index := 0, full_loop := false }

/-- numpy slice assignment `arr[a : a + len(xs)] = xs`: positions
`a ≤ i < a + len(xs)` now hold `xs[i - a]`, the rest is unchanged. -/
def writeSlice {α : Type} (f : Nat → Option α) (a : Nat) (xs : List α) : Nat → Option α :=
  fun i => if a ≤ i ∧ i < a + xs.length then xs[i - a]? else f i

/-- `ReplayBuffer._push_unchecked` (mppo.py lines 133-140): write the
rows at `index ..` and advance the write pointer. -/
def ReplayBuffer.push_unchecked {α : Type} (rb : ReplayBuffer α) (xs : List α) :
    ReplayBuffer α :=
  { rb with data := writeSlice rb.data rb.index xs, index := rb.index + xs.length }

/-- `ReplayBuffer.push` (mppo.py lines 106-131).  If the rows fit,
push them in place.  Otherwise the source computes
`n = capacity - index - len(xs)` (negative in this branch) and splits
`xs[:n]` / `xs[n:]`; for negative `n`, python's `xs[:n]` is the first
`max(len(xs) + n, 0) = max(capacity - index, 0)` items, which is what
`List.take (capacity - index)` computes with truncated subtraction.
The first part fills the remaining capacity, the pointer wraps to 0,
the second part is written from the start and `full_loop` is set. -/
def ReplayBuffer.push {α : Type} (rb : ReplayBuffer α) (xs : List α) : ReplayBuffer α :=
  if rb.index + xs.length ≤ rb.capacity then
    rb.push_unchecked xs
  else
    let keep := rb.capacity - rb.index
    let rb1 := rb.push_unchecked (xs.take keep)
    let rb2 := { rb1 with index := 0 }
    let rb3 := rb2.push_unchecked (xs.drop keep)
    { rb3 with full_loop := true }

/-- `ReplayBuffer.__len__` (mppo.py lines 160-161):
`min(self.index, self.capacity)`. -/
def ReplayBuffer.len {α : Type} (rb : ReplayBuffer α) : Nat :=
  min rb.index rb.capacity

/-- The valid written range used by `ReplayBuffer.sample`
(mppo.py line 150): `self.capacity if self.full_loop else self.index`. -/
def ReplayBuffer.validRange {α : Type} (rb : ReplayBuffer α) : Nat :=
  if rb.full_loop then rb.capacity else rb.index

/-- Claim C1: pushing more rows than the capacity (capacity 10, two
pushes of 6 rows each) does set `full_loop = true`, but `__len__`
then returns `min(index, capacity) = 2`, not the capacity 10: the
length claim fails on the code. -/
theorem replay_len_after_wrap_eval :
    (((ReplayBuffer.init Nat 10).push (List.range 6)).push (List.range 6)).full_loop = true ∧
    (((ReplayBuffer.init Nat 10).push (List.range 6)).push (List.range 6)).len = 2 ∧
    (((ReplayBuffer.init Nat 10).push (List.range 6)).push (List.range 6)).len ≠
      (((ReplayBuffer.init Nat 10).push (List.range 6)).push (List.range 6)).capacity := by
  refine ⟨rfl, rfl, ?_⟩
  decide

/-- Claim C4: pushing `xs` with `0 < len(xs) ≤ capacity` into a buffer
whose write pointer satisfies `index + len(xs) > capacity` writes the
first `capacity - index` rows at positions `index .. capacity-1`,
wraps the pointer to 0, writes the remaining rows from position 0, and
sets `full_loop`. -/
theorem push_wraparound_split {α : Type} (rb : ReplayBuffer α) (xs : List α)
    (hwf : rb.index ≤ rb.capacity) (_hpos : 0 < xs.length)
    (hle : xs.length ≤ rb.capacity) (hover : rb.capacity < rb.index + xs.length) :
    (rb.push xs).full_loop = true ∧
    (rb.push xs).index = xs.length - (rb.capacity - rb.index) ∧
    (∀ j, j < rb.capacity - rb.index → (rb.push xs).data (rb.index + j) = xs[j]?) ∧
    (∀ j, j < xs.length - (rb.capacity - rb.index) →
      (rb.push xs).data j = xs[(rb.capacity - rb.index) + j]?) := by
  have hbranch : ¬ (rb.index + xs.length ≤ rb.capacity) := by omega
  unfold ReplayBuffer.push
  simp only [hbranch, if_false, ReplayBuffer.push_unchecked]
  refine ⟨by trivial, ?_, ?_, ?_⟩
  · simp [List.length_drop]
  · intro j hj
    have hkeep_len : (xs.take (rb.capacity - rb.index)).length = rb.capacity - rb.index := by
      simp [List.length_take]; omega
    have hdrop_len : (xs.drop (rb.capacity - rb.index)).length =
        xs.length - (rb.capacity - rb.index) := by
      simp [List.length_drop]
    simp only [writeSlice, hkeep_len, hdrop_len]
    have houter : ¬ (0 ≤ rb.index + j ∧ rb.index + j < 0 + (xs.length - (rb.capacity - rb.index))) := by
      omega
    rw [if_neg houter, if_pos (by omega : rb.index ≤ rb.index + j ∧ rb.index + j < rb.index + (rb.capacity - rb.index))]
    have : rb.index + j - rb.index = j := by omega
    rw [this, List.getElem?_take_of_lt hj]
  · intro j hj
    have hdrop_len : (xs.drop (rb.capacity - rb.index)).length =
        xs.length - (rb.capacity - rb.index) := by
      simp [List.length_drop]
    simp only [writeSlice, hdrop_len]
    rw [if_pos (by omega : 0 ≤ j ∧ j < 0 + (xs.length - (rb.capacity - rb.index)))]
    have : j - 0 = j := by omega
    rw [this, List.getElem?_drop]

/-- Witness for claim C4 at a concrete buffer: capacity 4, three rows
already pushed (index 3), then a push of two rows wraps. -/
theorem push_wraparound_split_witness :
    (((ReplayBuffer.init Nat 4).push [10, 11, 12]).index ≤
        ((ReplayBuffer.init Nat 4).push [10, 11, 12]).capacity ∧
      0 < ([20, 21] : List Nat).length ∧
      ([20, 21] : List Nat).length ≤ ((ReplayBuffer.init Nat 4).push [10, 11, 12]).capacity ∧
      ((ReplayBuffer.init Nat 4).push [10, 11, 12]).capacity <
        ((ReplayBuffer.init Nat 4).push [10, 11, 12]).index + ([20, 21] : List Nat).length) ∧
    ((((ReplayBuffer.init Nat 4).push [10, 11, 12]).push [20, 21]).full_loop = true ∧
      (((ReplayBuffer.init Nat 4).push [10, 11, 12]).push [20, 21]).index =
        ([20, 21] : List Nat).length -
          (((ReplayBuffer.init Nat 4).push [10, 11, 12]).capacity -
            ((ReplayBuffer.init Nat 4).push [10, 11, 12]).index) ∧
      (∀ j, j < ((ReplayBuffer.init Nat 4).push [10, 11, 12]).capacity -
          ((ReplayBuffer.init Nat 4).push [10, 11, 12]).index →
        (((ReplayBuffer.init Nat 4).push [10, 11, 12]).push [20, 21]).data
            (((ReplayBuffer.init Nat 4).push [10, 11, 12]).index + j) =
          ([20, 21] : List Nat)[j]?) ∧
      (∀ j, j < ([20, 21] : List Nat).length -
          (((ReplayBuffer.init Nat 4).push [10, 11, 12]).capacity -
            ((ReplayBuffer.init Nat 4).push [10, 11, 12]).index) →
        (((ReplayBuffer.init Nat 4).push [10, 11, 12]).push [20, 21]).data j =
          ([20, 21] : List Nat)[(((ReplayBuffer.init Nat 4).push [10, 11, 12]).capacity -
            ((ReplayBuffer.init Nat 4).push [10, 11, 12]).index) + j]?)) :=
  ⟨⟨by decide, by decide, by decide, by decide⟩,
    push_wraparound_split ((ReplayBuffer.init Nat 4).push [10, 11, 12]) [20, 21]
      (by decide) (by decide) (by decide) (by decide)⟩

/-- `np.random.randint(n)`: raises `ValueError: low >= high` unless
`0 < n`, otherwise returns a value in `[0, n)`.  The external entropy
is modelled by an arbitrary natural `draw`, reduced into the support
by `% n`. -/
def randint (n : Int) (draw : Nat) : Except String Nat :=
  if 0 < n then Except.ok (draw % n.toNat) else Except.error "low >= high"

/-- One iteration of the loop in `ReplayBuffer.sample`
(mppo.py lines 148-156): draw an actor index `rand_r` below the actor
count (`self.states.shape[1]`), draw a start time `rand_h` below
`(capacity if full_loop else index) - horizon` (integer arithmetic, so
the bound may be non-positive and `randint` may raise), then copy the
window `[rand_h, rand_h + horizon)` of actor `rand_r`.  An entry is
`none` iff the slot was never written (numpy would return its
zero-initialised contents there). -/
def ReplayBuffer.sample_one {β : Type} (rb : ReplayBuffer (List β)) (actors horizon : Nat)
    (draw : Nat × Nat) : Except String (List (Option β)) := do
  let rand_r ← randint (actors : Int) draw.1
  let rand_h ← randint ((rb.validRange : Int) - (horizon : Int)) draw.2
  Except.ok ((List.range horizon).map (fun j => (rb.data (rand_h + j)).bind (fun row => row[rand_r]?)))

/-- `ReplayBuffer.sample` (mppo.py lines 142-158): one window per
requested rollout; the number of rollouts is the length of `draws`
(one pair of random draws per loop iteration).  The method reads but
never assigns any field of `self`, so the buffer after the call is
returned unchanged alongside the result. -/
def ReplayBuffer.sample {β : Type} (rb : ReplayBuffer (List β)) (actors horizon : Nat)
    (draws : List (Nat × Nat)) :
    ReplayBuffer (List β) × Except String (List (List (Option β))) :=
  (rb, draws.mapM (rb.sample_one actors horizon))

/-- Start time used by `sample_one` for a draw when the range is
positive. -/
theorem sample_one_ok {β : Type} (rb : ReplayBuffer (List β)) (actors horizon : Nat)
    (d : Nat × Nat) (hact : 0 < actors) (hhor : horizon < rb.validRange) :
    rb.sample_one actors horizon d =
      Except.ok ((List.range horizon).map
        (fun j => (rb.data (d.2 % (rb.validRange - horizon) + j)).bind
          (fun row => row[d.1 % actors]?))) := by
  have h1 : (0 : Int) < (actors : Int) := by exact_mod_cast hact
  have h2 : (0 : Int) < (rb.validRange : Int) - (horizon : Int) := by
    omega
  have h3 : ((rb.validRange : Int) - (horizon : Int)).toNat = rb.validRange - horizon := by
    omega
  have h4 : ((actors : Int)).toNat = actors := by omega
  simp only [ReplayBuffer.sample_one, randint, if_pos h1, if_pos h2, h3, h4]
  rfl

/-- Every entry of one sampled window is a previously written value. -/
theorem sample_window_entries {β : Type} (rb : ReplayBuffer (List β)) (actors horizon : Nat)
    (d : Nat × Nat) (hact : 0 < actors)
    (hsome : ∀ i, i < rb.validRange → (rb.data i).isSome = true)
    (hrows : ∀ i row, rb.data i = some row → row.length = actors)
    (hhor : horizon < rb.validRange) :
    ∀ e ∈ (List.range horizon).map
      (fun j => (rb.data (d.2 % (rb.validRange - horizon) + j)).bind
        (fun row => row[d.1 % actors]?)), e.isSome = true := by
  intro e he
  rcases List.mem_map.mp he with ⟨j, hj, rfl⟩
  have hjlt : j < horizon := List.mem_range.mp hj
  have hstart : d.2 % (rb.validRange - horizon) < rb.validRange - horizon :=
    Nat.mod_lt _ (by omega)
  have hpos : d.2 % (rb.validRange - horizon) + j < rb.validRange := by omega
  rcases Option.isSome_iff_exists.mp (hsome _ hpos) with ⟨row, hrow⟩
  rw [hrow, Option.some_bind]
  have hlen : d.1 % actors < row.length := by
    rw [hrows _ _ hrow]
    exact Nat.mod_lt _ hact
  simp [List.getElem?_eq_getElem hlen]

/-- Claim C5: for any number of draws, sampling succeeds and every
copied entry is a previously written one (never `none`, i.e. never
zero-initialised padding); the start time of every draw lies below
`validRange - horizon`, so when `full_loop` is false every window
stays at or below the write pointer. -/
theorem sample_windows_written {β : Type} (rb : ReplayBuffer (List β)) (actors horizon : Nat)
    (draws : List (Nat × Nat)) (hact : 0 < actors)
    (hsome : ∀ i, i < rb.validRange → (rb.data i).isSome = true)
    (hrows : ∀ i row, rb.data i = some row → row.length = actors)
    (hhor : horizon < rb.validRange) :
    (∃ ws, (rb.sample actors horizon draws).2 = Except.ok ws ∧
      ws.length = draws.length ∧ ∀ w ∈ ws, ∀ e ∈ w, e.isSome = true) ∧
    (rb.full_loop = false → ∀ d ∈ draws,
      d.2 % (rb.validRange - horizon) + horizon ≤ rb.index) := by
  constructor
  · have hall : ∀ ds : List (Nat × Nat), ∃ ws,
        ds.mapM (rb.sample_one actors horizon) = Except.ok ws ∧
        ws.length = ds.length ∧ ∀ w ∈ ws, ∀ e ∈ w, e.isSome = true := by
      intro ds
      induction ds with
      | nil => exact ⟨[], rfl, rfl, by intro w hw; cases hw⟩
      | cons d ds ih =>
        rcases ih with ⟨ws, hok, hlen, hprop⟩
        refine ⟨(List.range horizon).map
          (fun j => (rb.data (d.2 % (rb.validRange - horizon) + j)).bind
            (fun row => row[d.1 % actors]?)) :: ws, ?_, by simp [hlen], ?_⟩
        · rw [List.mapM_cons, sample_one_ok rb actors horizon d hact hhor, hok]
          rfl
        · intro w hw
          rcases List.mem_cons.mp hw with rfl | hw'
          · exact sample_window_entries rb actors horizon d hact hsome hrows hhor
          · exact hprop w hw'
    exact hall draws
  · intro hfl d _
    have hstart : d.2 % (rb.validRange - horizon) < rb.validRange - horizon :=
      Nat.mod_lt _ (by omega)
    have hvr : rb.validRange = rb.index := by
      simp [ReplayBuffer.validRange, hfl]
    omega

/-- Witness for claim C5: capacity 5, three one-actor rows pushed
(write pointer 3, not wrapped), horizon 2, one draw. -/
theorem sample_windows_written_witness :
    (0 < 1 ∧ 2 < ((ReplayBuffer.init (List Nat) 5).push [[10], [11], [12]]).validRange) ∧
    ((∃ ws, (((ReplayBuffer.init (List Nat) 5).push [[10], [11], [12]]).sample 1 2 [(0, 1)]).2 =
        Except.ok ws ∧ ws.length = ([(0, 1)] : List (Nat × Nat)).length ∧
        ∀ w ∈ ws, ∀ e ∈ w, e.isSome = true) ∧
      (((ReplayBuffer.init (List Nat) 5).push [[10], [11], [12]]).full_loop = false →
        ∀ d ∈ ([(0, 1)] : List (Nat × Nat)),
          d.2 % (((ReplayBuffer.init (List Nat) 5).push [[10], [11], [12]]).validRange - 2) + 2 ≤
            ((ReplayBuffer.init (List Nat) 5).push [[10], [11], [12]]).index)) := by
  refine ⟨⟨by decide, by decide⟩,
    sample_windows_written _ 1 2 [(0, 1)] (by decide) ?_ ?_ (by decide)⟩
  · intro i hi
    have hv : ((ReplayBuffer.init (List Nat) 5).push [[10], [11], [12]]).validRange = 3 := rfl
    rw [hv] at hi
    show (writeSlice (fun _ => none) 0 [[10], [11], [12]] i).isSome = true
    rw [writeSlice]
    rw [if_pos ⟨Nat.zero_le i, by simpa using hi⟩]
    have hi' : i < ([[10], [11], [12]] : List (List Nat)).length := by simpa using hi
    simp [List.getElem?_eq_getElem hi']
  · intro i row h
    have h' : writeSlice (fun _ => none) 0 [[10], [11], [12]] i = some row := h
    rw [writeSlice] at h'
    by_cases hc : 0 ≤ i ∧ i < 0 + ([[10], [11], [12]] : List (List Nat)).length
    · rw [if_pos hc] at h'
      have hmem : row ∈ ([[10], [11], [12]] : List (List Nat)) := List.getElem?_mem h'
      rcases List.mem_cons.mp hmem with rfl | hmem
      · rfl
      rcases List.mem_cons.mp hmem with rfl | hmem
      · rfl
      rcases List.mem_cons.mp hmem with rfl | hmem
      · rfl
      cases hmem
    · rw [if_neg hc] at h'
      cases h'

/-- Claim C10: with at least one rollout requested, whenever the valid
written range (`capacity` if wrapped else the write pointer) is at most
`horizon`, `np.random.randint` is called with a non-positive bound and
raises, so `sample` fails instead of returning zero-padded data; the
buffer (storage, write pointer, `full_loop`) is unchanged. -/
theorem sample_insufficient_range_error {β : Type} (rb : ReplayBuffer (List β))
    (actors horizon : Nat) (draws : List (Nat × Nat))
    (hd : draws ≠ []) (hact : 0 < actors) (hrange : rb.validRange ≤ horizon) :
    (rb.sample actors horizon draws).2 = Except.error "low >= high" ∧
    (rb.sample actors horizon draws).1 = rb := by
  rcases List.exists_cons_of_ne_nil hd with ⟨d, ds, rfl⟩
  have h1 : rb.sample_one actors horizon d = Except.error "low >= high" := by
    have ha : (0 : Int) < (actors : Int) := by exact_mod_cast hact
    have hb : ¬ ((0 : Int) < (rb.validRange : Int) - (horizon : Int)) := by omega
    simp only [ReplayBuffer.sample_one, randint, if_pos ha, if_neg hb]
    rfl
  constructor
  · simp only [ReplayBuffer.sample, List.mapM_cons]
    rw [h1]
    rfl
  · rfl

/-- Witness for claim C10: a freshly created buffer (write pointer 0,
not wrapped) sampled with horizon 2 and one draw. -/
theorem sample_insufficient_range_error_witness :
    (([((0 : Nat), (0 : Nat))] : List (Nat × Nat)) ≠ [] ∧ 0 < 1 ∧
      (ReplayBuffer.init (List Nat) 5).validRange ≤ 2) ∧
    (((ReplayBuffer.init (List Nat) 5).sample 1 2 [(0, 0)]).2 = Except.error "low >= high" ∧
      ((ReplayBuffer.init (List Nat) 5).sample 1 2 [(0, 0)]).1 = ReplayBuffer.init (List Nat) 5) :=
  ⟨⟨by decide, by decide, by decide⟩,
    sample_insufficient_range_error (ReplayBuffer.init (List Nat) 5) 1 2 [(0, 0)]
      (by decide) (by decide) (by decide)⟩

/-! ## Returns and GAE advantages (spec section 4.2)

`PPO._process_rewards` (ppo.py lines 282-291) calls `calc_returns` and
`calc_advantages` from `ppo_pytorch.common.gae`; that module is not
among the sources, so the two recursions are modelled from the spec.
Data is per-actor: `r t` is the reward at step `t`, `v t` the value
estimate, `d t` the done flag.  The first argument is the number of
remaining transitions before the horizon boundary (fuel `T - t` for
absolute time `t` with horizon `T`); at the boundary the trailing
value estimate bootstraps the returns. -/

/-- Indicator of a done flag, as the float `(1 - done_t)` factors use it. -/
def doneInd (b : Bool) : ℚ := if b then 1 else 0

/-- Modelled from the spec: `calc_returns` of `ppo_pytorch/common/gae.py`
(not in the sources).  `R_t = reward_t + γ·R_{t+1}·(1 - done_t)`,
computed backward from the last step, with the trailing value estimate
as bootstrap at the horizon boundary. -/
def calc_returns (γ : ℚ) (r v : Nat → ℚ) (d : Nat → Bool) : Nat → Nat → ℚ
  | 0, t => v t
  | n + 1, t => r t + γ * (1 - doneInd (d t)) * calc_returns γ r v d n (t + 1)

/-- Modelled from the spec: `calc_advantages` of
`ppo_pytorch/common/gae.py` (not in the sources).
`δ_t = reward_t + γ·V_{t+1}·(1 - done_t) - V_t`;
`A_t = δ_t + γ·λ·A_{t+1}·(1 - done_t)`, computed backward. -/
def calc_advantages (γ lam : ℚ) (r v : Nat → ℚ) (d : Nat → Bool) : Nat → Nat → ℚ
  | 0, _ => 0
  | n + 1, t =>
      (r t + γ * (1 - doneInd (d t)) * v (t + 1) - v t) +
        γ * lam * (1 - doneInd (d t)) * calc_advantages γ lam r v d n (t + 1)

/-- Claim C3: when the done flag at time `t` is set, the advantage and
the return at `t` do not depend on the value estimates after `t`: any
two value functions that agree up to `t` give the same `A_t` and `R_t`. -/
theorem gae_terminal_isolation (γ lam : ℚ) (r : Nat → ℚ) (d : Nat → Bool)
    (v v' : Nat → ℚ) (T t : Nat) (ht : t < T) (hd : d t = true)
    (hagree : ∀ i, i ≤ t → v i = v' i) :
    calc_advantages γ lam r v d (T - t) t = calc_advantages γ lam r v' d (T - t) t ∧
    calc_returns γ r v d (T - t) t = calc_returns γ r v' d (T - t) t := by
  obtain ⟨n, hn⟩ : ∃ n, T - t = n + 1 := ⟨T - t - 1, by omega⟩
  rw [hn]
  have hv : v t = v' t := hagree t (Nat.le_refl t)
  constructor
  · simp only [calc_advantages, hd, doneInd, if_pos]
    rw [hv]
    ring
  · simp only [calc_returns, hd, doneInd, if_pos]
    ring

/-- Witness for claim C3: horizon 2, done at step 0, two value
functions differing only after step 0. -/
theorem gae_terminal_isolation_witness :
    ((0 : Nat) < 2 ∧ (fun _ : Nat => true) 0 = true ∧
      (∀ i, i ≤ 0 → (fun _ : Nat => (5 : ℚ)) i = (fun n : Nat => (5 : ℚ) + n) i)) ∧
    (calc_advantages (1/2) (9/10) (fun _ => 1) (fun _ => (5 : ℚ)) (fun _ => true) (2 - 0) 0 =
        calc_advantages (1/2) (9/10) (fun _ => 1) (fun n => (5 : ℚ) + n) (fun _ => true) (2 - 0) 0 ∧
      calc_returns (1/2) (fun _ => 1) (fun _ => (5 : ℚ)) (fun _ => true) (2 - 0) 0 =
        calc_returns (1/2) (fun _ => 1) (fun n => (5 : ℚ) + n) (fun _ => true) (2 - 0) 0) :=
  ⟨⟨by decide, rfl, by intro i hi; interval_cases i; norm_num⟩,
    gae_terminal_isolation (1/2) (9/10) (fun _ => 1) (fun _ => true)
      (fun _ => (5 : ℚ)) (fun n => (5 : ℚ) + n) 2 0 (by decide) rfl
      (by intro i hi; interval_cases i; norm_num)⟩

/-! ## PPO loss (ppo.py lines 348-414), per tensor element over `ℚ` -/

/-- The `constraint` configuration string of `PPO.__init__`
(ppo.py lines 97-100, 134): `None`, `'clip'` or `'clip_mod'`. -/
inductive Constraint
  | noClip
  | clip
  | clipMod
deriving DecidableEq

/-- `torch.clamp(x, lo, hi)`. -/
def rclamp (x lo hi : ℚ) : ℚ := min (max x lo) hi

/-- Elementwise `F.smooth_l1_loss(x, y, reduce=False)`:
`0.5·d²` if `d = |x - y| < 1`, else `d - 0.5`. -/
def smooth_l1 (x y : ℚ) : ℚ :=
  if |x - y| < 1 then (x - y) ^ 2 / 2 else |x - y| - 1 / 2

/-- Per-element policy part of `PPO._get_ppo_loss` (ppo.py lines
362-381): clip factors scaled by the clip-decay multiplier, the
probability ratio kept in log space (`logp - logp_old`, no
exponentiation), and the clipped surrogate loss.  `pdLogp action
probs` abstracts `pd.logp(actions, probs)`. -/
def get_ppo_loss_policy {A P : Type} (pdLogp : A → P → ℚ) (constraint : Constraint)
    (policy_clip clip_mult : ℚ) (action : A) (probs probs_old : P) (advantage : ℚ) : ℚ :=
  let pclip := policy_clip * clip_mult
  let logp := pdLogp action probs
  let logp_old := pdLogp action probs_old
  let ratio := logp - logp_old
  let unclipped_policy_loss := ratio * advantage
  match constraint with
  | Constraint.noClip => -unclipped_policy_loss
  | Constraint.clip | Constraint.clipMod =>
      (let clipped_ratio := rclamp ratio (-pclip) pclip;
      let clipped_policy_loss := clipped_ratio * advantage;
      -(min unclipped_policy_loss clipped_policy_loss))

/-- The clipped policy loss exactly as the claim words it. -/
def spec_policy_loss (ratio advantage pclip : ℚ) : ℚ :=
  -(min (ratio * advantage) (rclamp ratio (-pclip) pclip * advantage))

/-- Claim C6: under the `'clip'` (or `'clip_mod'`) constraint the policy
loss equals `-min(ratio·adv, clamp(ratio, -c, c)·adv)` where the ratio
is the log-space difference `logp(action|new) - logp(action|old)` (no
exponentiation) and `c = policy_clip · clip_mult`. -/
theorem ppo_policy_loss_log_space {A P : Type} (pdLogp : A → P → ℚ) (constraint : Constraint)
    (policy_clip clip_mult : ℚ) (action : A) (probs probs_old : P) (advantage : ℚ)
    (hc : constraint = Constraint.clip ∨ constraint = Constraint.clipMod) :
    get_ppo_loss_policy pdLogp constraint policy_clip clip_mult action probs probs_old advantage =
      spec_policy_loss (pdLogp action probs - pdLogp action probs_old) advantage
        (policy_clip * clip_mult) := by
  rcases hc with rfl | rfl <;> rfl

/-- Witness for claim C6 at concrete numbers: `logp = 3`, `logp_old = 1`
(ratio 2), advantage 4, `policy_clip·clip_mult = 1/2`. -/
theorem ppo_policy_loss_log_space_witness :
    (Constraint.clip = Constraint.clip ∨ Constraint.clip = Constraint.clipMod) ∧
    get_ppo_loss_policy (fun a p => a + p) Constraint.clip 1 (1/2) (1 : ℚ) (2 : ℚ) (0 : ℚ) 4 =
      spec_policy_loss ((fun a p : ℚ => a + p) 1 2 - (fun a p : ℚ => a + p) 1 0) 4 (1 * (1/2)) :=
  ⟨Or.inl rfl,
    ppo_policy_loss_log_space (fun a p => a + p) Constraint.clip 1 (1/2) 1 2 0 4 (Or.inl rfl)⟩

/-- Per-element value part of `PPO._get_ppo_loss` (ppo.py lines
383-387): clipped value prediction, smooth-L1 against the returns for
both variants, and `value_loss_scale * 0.5 * max(...)`. -/
def get_ppo_loss_value (value_loss_scale value_clip clip_mult : ℚ)
    (value value_old ret : ℚ) : ℚ :=
  let vclip := value_clip * clip_mult
  let v_pred_clipped := value_old + rclamp (value - value_old) (-vclip) vclip
  let vf_clip_loss := smooth_l1 v_pred_clipped ret
  let vf_nonclip_loss := smooth_l1 value ret
  value_loss_scale * (1 / 2) * max vf_nonclip_loss vf_clip_loss

/-- The value loss exactly as the claim words it: the value-loss
coefficient times the elementwise max of the two smooth losses. -/
def spec_value_loss (value_loss_scale value_clip clip_mult value value_old ret : ℚ) : ℚ :=
  value_loss_scale *
    max (smooth_l1 value ret)
      (smooth_l1 (value_old + rclamp (value - value_old)
        (-(value_clip * clip_mult)) (value_clip * clip_mult)) ret)

/-- Claim C7, counterexample: with coefficient 1, `value_clip·clip_mult
= 10`, prediction 2, old value 0 and return 0, the code computes
`1 · 0.5 · 1.5 = 0.75` while the claim's formula gives `1.5`: the code
multiplies by an extra factor `0.5`. -/
theorem value_loss_coeff_counterexample :
    get_ppo_loss_value 1 10 1 2 0 0 ≠ spec_value_loss 1 10 1 2 0 0 := by
  norm_num [get_ppo_loss_value, spec_value_loss, smooth_l1, rclamp]

/-- Claim C7 as amended: the value loss equals the value-loss
coefficient times `0.5` times the elementwise max of the smooth loss of
the unclipped predictions and that of the clipped predictions. -/
theorem value_loss_half_coeff (value_loss_scale value_clip clip_mult value value_old ret : ℚ) :
    get_ppo_loss_value value_loss_scale value_clip clip_mult value value_old ret =
      value_loss_scale * (1 / 2) *
        max (smooth_l1 value ret)
          (smooth_l1 (value_old + rclamp (value - value_old)
            (-(value_clip * clip_mult)) (value_clip * clip_mult)) ret) := by
  rfl

/-! ## Total-loss finiteness assertion (ppo.py lines 393-396, 314-322)

A torch scalar is modelled as a tagged value: an exact rational, or one
of the non-finite IEEE values `nan`, `+inf`, `-inf`.  The interesting
content of the claim is classification and control flow, not float
arithmetic, so the loss value is taken as given. -/

/-- A scalar float: finite, NaN, or infinite. -/
inductive TVal
  | finite (q : ℚ)
  | nan
  | posInf
  | negInf

/-- `np.isnan`. -/
def TVal.isNaN : TVal → Bool
  | TVal.nan => true
  | _ => false

/-- `np.isinf`. -/
def TVal.isInf : TVal → Bool
  | TVal.posInf | TVal.negInf => true
  | _ => false

/-- The final assertion of `PPO._get_ppo_loss` (ppo.py lines 395-396):
`assert not np.isnan(total_loss) and not np.isinf(total_loss)`; a
failed python assert raises `AssertionError`. -/
def assert_finite_loss (total_loss : TVal) : Except String TVal :=
  if total_loss.isNaN || total_loss.isInf then
    Except.error "AssertionError: total loss is nan or inf"
  else
    Except.ok total_loss

/-- The minibatch tail of `PPO._ppo_update` (ppo.py lines 316-322):
`_get_ppo_loss` runs (ending in the assertion above) before
`loss.backward()`, `clip_grad_norm` and `optimizer.step()`; an
assertion failure therefore propagates before any gradient or optimizer
step.  `opt_steps` counts completed optimizer steps. -/
def ppo_update_minibatch (total_loss : TVal) (opt_steps : Nat) : Except String Nat :=
  match assert_finite_loss total_loss with
  | Except.error e => Except.error e
  | Except.ok _ => Except.ok (opt_steps + 1)

/-- Claim C8: a NaN or infinite total loss makes the minibatch update
raise (no optimizer step happens, the step count does not advance);
a finite total loss never triggers the assertion and the update runs. -/
theorem nan_inf_loss_fatal (total_loss : TVal) (opt_steps : Nat) :
    ((total_loss.isNaN = true ∨ total_loss.isInf = true) →
      ppo_update_minibatch total_loss opt_steps =
        Except.error "AssertionError: total loss is nan or inf") ∧
    (total_loss.isNaN = false → total_loss.isInf = false →
      ppo_update_minibatch total_loss opt_steps = Except.ok (opt_steps + 1)) := by
  constructor
  · intro h
    cases total_loss <;>
      simp_all [ppo_update_minibatch, assert_finite_loss, TVal.isNaN, TVal.isInf]
  · intro h1 h2
    cases total_loss <;>
      simp_all [ppo_update_minibatch, assert_finite_loss, TVal.isNaN, TVal.isInf]

/-- Witness for claim C8: a NaN loss raises, a finite loss steps. -/
theorem nan_inf_loss_fatal_witness :
    (TVal.nan.isNaN = true ∨ TVal.nan.isInf = true) ∧
    ppo_update_minibatch TVal.nan 0 =
      Except.error "AssertionError: total loss is nan or inf" ∧
    ((TVal.finite 3).isNaN = false ∧ (TVal.finite 3).isInf = false) ∧
    ppo_update_minibatch (TVal.finite 3) 0 = Except.ok 1 :=
  ⟨Or.inl rfl,
    (nan_inf_loss_fatal TVal.nan 0).1 (Or.inl rfl),
    ⟨rfl, rfl⟩,
    (nan_inf_loss_fatal (TVal.finite 3) 0).2 rfl rfl⟩

/-! ## Rollout sample buffer (ppo.py lines 230-243) -/

/-- The `Sample` namedtuple (ppo.py line 43): per-step python lists. -/
structure SampleBuf (S R D P V A : Type) where
  states : List S
  rewards : List R
  dones : List D
  probs : List P
  values : List V
  actions : List A

/-- `PPO.create_new_sample` (ppo.py lines 241-243): all lists empty. -/
def create_new_sample {S R D P V A : Type} : SampleBuf S R D P V A :=
  { states := [], rewards := [], dones := [], probs := [], values := [], actions := [] }

/-- `PPO.append_to_sample` (ppo.py lines 230-239): when the buffer
already holds at least one state, first append the reward and done of
the previous transition; then always append state, probability
parameters, value and action. -/
def append_to_sample {S R D P V A : Type} (smp : SampleBuf S R D P V A)
    (state : S) (reward : R) (done : D) (action : A) (prob : P) (value : V) :
    SampleBuf S R D P V A :=
  let smp1 :=
    if smp.states.length ≠ 0 then
      { smp with rewards := smp.rewards ++ [reward], dones := smp.dones ++ [done] }
    else smp
  { smp1 with
      states := smp1.states ++ [state],
      probs := smp1.probs ++ [prob],
      values := smp1.values ++ [value],
      actions := smp1.actions ++ [action] }

/-- One environment step's data, as passed to `append_to_sample`. -/
structure StepData (S R D P V A : Type) where
  state : S
  reward : R
  done : D
  action : A
  prob : P
  value : V

/-- A sequence of `append_to_sample` calls on a fresh sample buffer. -/
def apply_steps {S R D P V A : Type} (steps : List (StepData S R D P V A)) :
    SampleBuf S R D P V A :=
  steps.foldl
    (fun smp d => append_to_sample smp d.state d.reward d.done d.action d.prob d.value)
    create_new_sample

/-- Shape invariant of a non-empty sample buffer, in the form used for
the induction. -/
def sampleShapeInv {S R D P V A : Type} (smp : SampleBuf S R D P V A) : Prop :=
  smp.rewards.length + 1 = smp.states.length ∧
  smp.rewards.length = smp.dones.length ∧
  smp.states.length = smp.probs.length ∧
  smp.states.length = smp.values.length ∧
  smp.states.length = smp.actions.length

/-- `append_to_sample` establishes the shape invariant on a fresh buffer. -/
theorem sampleShapeInv_first {S R D P V A : Type} (d : StepData S R D P V A) :
    sampleShapeInv (append_to_sample create_new_sample d.state d.reward d.done d.action d.prob d.value) := by
  simp [sampleShapeInv, append_to_sample, create_new_sample]

/-- `append_to_sample` preserves the shape invariant. -/
theorem sampleShapeInv_step {S R D P V A : Type} (smp : SampleBuf S R D P V A)
    (hinv : sampleShapeInv smp) (d : StepData S R D P V A) :
    sampleShapeInv (append_to_sample smp d.state d.reward d.done d.action d.prob d.value) := by
  rcases hinv with ⟨h1, h2, h3, h4, h5⟩
  have hne : smp.states.length ≠ 0 := by omega
  simp [sampleShapeInv, append_to_sample, hne]
  omega

/-- The shape invariant survives any further sequence of appends. -/
theorem sampleShapeInv_foldl {S R D P V A : Type} (steps : List (StepData S R D P V A))
    (smp : SampleBuf S R D P V A) (hinv : sampleShapeInv smp) :
    sampleShapeInv (steps.foldl
      (fun smp d => append_to_sample smp d.state d.reward d.done d.action d.prob d.value) smp) := by
  induction steps generalizing smp with
  | nil => exact hinv
  | cons d steps ih => exact ih _ (sampleShapeInv_step smp hinv d)

/-- Claim C9: the first `append_to_sample` on a fresh buffer stores the
state, probability parameters, value and action but no reward or done
flag, and after every prefix of calls (every call, for every call count
`1 ≤ n ≤ len(steps)`) the lengths satisfy
`len(rewards) = len(dones) = len(states) - 1` and
`len(states) = len(probs) = len(values) = len(actions)`. -/
theorem append_sample_invariant {S R D P V A : Type} (d : StepData S R D P V A)
    (steps : List (StepData S R D P V A)) (n : Nat) (hn1 : 1 ≤ n) (hn2 : n ≤ steps.length) :
    (apply_steps [d] =
      (⟨[d.state], [], [], [d.prob], [d.value], [d.action]⟩ : SampleBuf S R D P V A)) ∧
    ((apply_steps (steps.take n)).rewards.length = (apply_steps (steps.take n)).dones.length ∧
      (apply_steps (steps.take n)).rewards.length = (apply_steps (steps.take n)).states.length - 1 ∧
      (apply_steps (steps.take n)).states.length = (apply_steps (steps.take n)).probs.length ∧
      (apply_steps (steps.take n)).states.length = (apply_steps (steps.take n)).values.length ∧
      (apply_steps (steps.take n)).states.length = (apply_steps (steps.take n)).actions.length) := by
  constructor
  · simp [apply_steps, append_to_sample, create_new_sample]
  · have hcons : ∃ d0 rest, steps.take n = d0 :: rest := by
      cases h : steps.take n with
      | nil =>
          exfalso
          have hmin : min n steps.length = 0 := by
            simpa [List.length_take] using congrArg List.length h
          omega
      | cons d0 rest => exact ⟨d0, rest, rfl⟩
    rcases hcons with ⟨d0, rest, heq⟩
    have hinv : sampleShapeInv (apply_steps (steps.take n)) := by
      rw [heq]
      simp only [apply_steps, List.foldl_cons]
      exact sampleShapeInv_foldl rest _ (sampleShapeInv_first d0)
    rcases hinv with ⟨h1, h2, h3, h4, h5⟩
    omega

/-- Witness for claim C9: two concrete appends. -/
theorem append_sample_invariant_witness :
    ((1 : Nat) ≤ 2 ∧ 2 ≤ ([⟨1, 2, 3, 4, 5, 6⟩, ⟨7, 8, 9, 10, 11, 12⟩] :
        List (StepData Nat Nat Nat Nat Nat Nat)).length) ∧
    ((apply_steps [(⟨1, 2, 3, 4, 5, 6⟩ : StepData Nat Nat Nat Nat Nat Nat)] =
        (⟨[1], [], [], [5], [6], [4]⟩ : SampleBuf Nat Nat Nat Nat Nat Nat)) ∧
      ((apply_steps (([⟨1, 2, 3, 4, 5, 6⟩, ⟨7, 8, 9, 10, 11, 12⟩] :
          List (StepData Nat Nat Nat Nat Nat Nat)).take 2)).rewards.length =
        (apply_steps (([⟨1, 2, 3, 4, 5, 6⟩, ⟨7, 8, 9, 10, 11, 12⟩] :
          List (StepData Nat Nat Nat Nat Nat Nat)).take 2)).dones.length ∧
      (apply_steps (([⟨1, 2, 3, 4, 5, 6⟩, ⟨7, 8, 9, 10, 11, 12⟩] :
          List (StepData Nat Nat Nat Nat Nat Nat)).take 2)).rewards.length =
        (apply_steps (([⟨1, 2, 3, 4, 5, 6⟩, ⟨7, 8, 9, 10, 11, 12⟩] :
          List (StepData Nat Nat Nat Nat Nat Nat)).take 2)).states.length - 1 ∧
      (apply_steps (([⟨1, 2, 3, 4, 5, 6⟩, ⟨7, 8, 9, 10, 11, 12⟩] :
          List (StepData Nat Nat Nat Nat Nat Nat)).take 2)).states.length =
        (apply_steps (([⟨1, 2, 3, 4, 5, 6⟩, ⟨7, 8, 9, 10, 11, 12⟩] :
          List (StepData Nat Nat Nat Nat Nat Nat)).take 2)).probs.length ∧
      (apply_steps (([⟨1, 2, 3, 4, 5, 6⟩, ⟨7, 8, 9, 10, 11, 12⟩] :
          List (StepData Nat Nat Nat Nat Nat Nat)).take 2)).states.length =
        (apply_steps (([⟨1, 2, 3, 4, 5, 6⟩, ⟨7, 8, 9, 10, 11, 12⟩] :
          List (StepData Nat Nat Nat Nat Nat Nat)).take 2)).values.length ∧
      (apply_steps (([⟨1, 2, 3, 4, 5, 6⟩, ⟨7, 8, 9, 10, 11, 12⟩] :
          List (StepData Nat Nat Nat Nat Nat Nat)).take 2)).states.length =
        (apply_steps (([⟨1, 2, 3, 4, 5, 6⟩, ⟨7, 8, 9, 10, 11, 12⟩] :
          List (StepData Nat Nat Nat Nat Nat Nat)).take 2)).actions.length)) :=
  ⟨⟨by decide, by decide⟩,
    append_sample_invariant (⟨1, 2, 3, 4, 5, 6⟩ : StepData Nat Nat Nat Nat Nat Nat)
      [⟨1, 2, 3, 4, 5, 6⟩, ⟨7, 8, 9, 10, 11, 12⟩] 2 (by decide) (by decide)⟩

/-! ## Discriminator fake step of `MPPO._train_world`
(mppo.py lines 254-274)

Tensors are modelled by one abstract type `T`.  `modelState s` is
`self.model(states[0])` (hidden code, probs); `modelCode c` is
`self.model(c, hidden_code_input=True)` (hidden code, probs);
`pdSample p` is `self.model.pd.sample(p)`; `world_gen c a` is the
generator returning (next code, reward, done); `world_disc` the
discriminator score.  `actions` is the real action batch sampled from
the replay buffer (in scope from line 228).  A ghost field records the
arguments of every `world_gen` invocation. -/

/-- The lists built by the fake-step loop, plus the ghost log of
generator invocations `(cur_code, action argument)`. -/
structure FakeStepTrace (T : Type) where
  all_gen_hidden_codes : List T
  all_gen_actions : List T
  all_gen_rewards : List T
  all_gen_dones : List T
  disc_fake : List T
  gen_call_args : List (T × T)

/-- One iteration `i` of the loop at mppo.py lines 260-274, verbatim:
the policy is evaluated on `states[0]` at `i = 0` (appending its hidden
code) and on the last generated code otherwise; `cur_actions` is
sampled from the current policy; the generator is invoked as
`self.world_gen(cur_code, actions)` — with the real action batch
`actions`, while `cur_actions` goes only to the discriminator. -/
def disc_fake_body {T : Type} (modelState modelCode : T → T × T) (pdSample : T → T)
    (world_gen : T → T → T × T × T) (world_disc : T → T → T → T → T → T)
    (states0 actions : T) (st : FakeStepTrace T) (i : Nat) : FakeStepTrace T :=
  let ac_out := if i = 0 then modelState states0
    else modelCode (st.all_gen_hidden_codes.getLastD states0)
  let codes := if i = 0 then st.all_gen_hidden_codes ++ [ac_out.1]
    else st.all_gen_hidden_codes
  let cur_code := codes.getLastD states0
  let cur_actions := pdSample ac_out.2
  let g := world_gen cur_code actions
  let d := world_disc cur_code g.1 cur_actions g.2.1 g.2.2
  { all_gen_hidden_codes := codes ++ [g.1],
    all_gen_actions := st.all_gen_actions ++ [cur_actions],
    all_gen_rewards := st.all_gen_rewards ++ [g.2.1],
    all_gen_dones := st.all_gen_dones ++ [g.2.2],
    disc_fake := st.disc_fake ++ [d],
    gen_call_args := st.gen_call_args ++ [(cur_code, actions)] }

/-- The whole fake-step unroll: `for i in range(self.world_train_horizon)`. -/
def disc_fake_step {T : Type} (modelState modelCode : T → T × T) (pdSample : T → T)
    (world_gen : T → T → T × T × T) (world_disc : T → T → T → T → T → T)
    (states0 actions : T) (horizon : Nat) : FakeStepTrace T :=
  (List.range horizon).foldl
    (disc_fake_body modelState modelCode pdSample world_gen world_disc states0 actions)
    { all_gen_hidden_codes := [], all_gen_actions := [], all_gen_rewards := [],
      all_gen_dones := [], disc_fake := [], gen_call_args := [] }

/-- Claim C2: evaluating the unroll at a concrete instance (horizon 1,
encoded initial code 1, real action batch 9, action sampled from the
current policy 6) shows the generator is invoked with `(1, 9)` — the
current hidden code together with the *real* replay action batch — and
not with the step's sampled action 6, contradicting the claim that each
step invokes the generator on the action sampled from the current
policy at that step. -/
theorem world_gen_actions_arg_eval :
    (disc_fake_step (fun s => (s + 1, s + 2)) (fun c => (c, c + 3)) (fun p => p + 4)
        (fun c a => (c + 100 * a, c, a)) (fun _ _ _ _ _ => 0) 0 9 1).gen_call_args = [(1, 9)] ∧
    (disc_fake_step (fun s => (s + 1, s + 2)) (fun c => (c, c + 3)) (fun p => p + 4)
        (fun c a => (c + 100 * a, c, a)) (fun _ _ _ _ _ => 0) 0 9 1).all_gen_actions = [6] ∧
    (9 : Nat) ≠ 6 := by
  refine ⟨rfl, rfl, ?_⟩
  decide
